import Mathlib

set_option autoImplicit false

/-!
# PhiFlow core: shallow embedding and verification

This file embeds the state/physics dependency-resolution engine of the PhiFlow
repository (`phi/physics/physics.py`, `phi/physics/collective.py`,
`phi/physics/world.py`) together with the geometry and domain helpers
(`phi/physics/geom.py`, `phi/physics/domain.py`) that the verified properties
are about, and proves or refutes those properties.

Conventions of the embedding:
* Python floats become exact rationals (`ℚ`); machine rounding is not modelled.
* The numeric tensor backend is out of scope for the framework semantics
  (spec §6 treats it as opaque and exchangeable with a deferred computation
  graph), so field data is embedded as a symbolic expression tree `VExpr`
  that records exactly the operations the physics implementations apply.
* `TrajectoryKey` objects are embedded as natural numbers.  The `phi.struct`
  package that allocates them and implements `copied_with` is not part of the
  sources; its behaviour is modelled from the spec where noted.
* Fallible Python code (assertions, attribute errors) is embedded with
  `Except Err`.
-/

namespace PhiFlow

/-! Batteries marks the rational-number arithmetic irreducible; restoring the
default reducibility lets concrete runs of the embedded functions be
evaluated by `decide`/`rfl` in the witnesses below. -/
attribute [local semireducible] Rat.add Rat.mul Rat.sub

/-- Symbolic field data: the opaque numeric backend (spec §6) embedded as a
deferred computation graph.  Constructors record the exact operation trees
built by `burger.py` (`advect`, `diffuse`) and `burgers.py`
(`advect.semi_lagrangian`, `field.util.diffuse`, `effect_applied`). -/
inductive VExpr : Type where
  /-- a raw backend tensor -/
  | value (data : List ℚ)
  /-- `diffuse(velocity, viscosity, dt)` from burger.py -/
  | burgerDiffuse (v : VExpr) (viscosity dt : ℚ)
  /-- `advect(velocity, dt)` from burger.py -/
  | burgerAdvect (v : VExpr) (dt : ℚ)
  /-- `advect.semi_lagrangian(field, velocity, dt)` used by burgers.py -/
  | semiLagrangian (f v : VExpr) (dt : ℚ)
  /-- `diffuse(velocity, amount, substeps)` from the field utilities -/
  | diffuse (v : VExpr) (amount : ℚ) (substeps : ℕ)
  /-- `effect_applied(effect, velocity, dt)`; the effect state is recorded by
      its trajectorykey -/
  | effectApplied (effect : ℕ) (v : VExpr) (dt : ℚ)
  deriving DecidableEq

/-- Kind-specific fields of a `State`, one constructor per `State` subclass in
the sources whose physics the claims mention: `plain` for states stepped by
`Static` (physics.py), `burgerV` for `Burger` (burger.py), `burgersV` for
`Burgers` (burgers.py). -/
inductive Payload : Type where
  | plain
  | burgerV (velocity : VExpr) (viscosity : ℚ)
  | burgersV (velocity : VExpr) (viscosity : ℚ)
  deriving DecidableEq

/-- `State` (phi/physics/physics.py): a trajectorykey identity token, `tags`,
`age`, `name`, and kind-specific fields.  The trajectorykey itself is
allocated by the `phi.struct` machinery (not under src/); per the spec it is a
process-unique token, embedded here as a `ℕ`. -/
structure SState : Type where
  trajectorykey : ℕ
  tags : List String
  age : ℚ
  name : String
  payload : Payload
  deriving DecidableEq

/-- What a dependency entry refers to (physics.py `StateDependency`): either a
tag (zero or more matching states) or an explicit trajectory identity. -/
inductive DepRef : Type where
  | byTag (tag : String)
  | byKey (key : ℕ)
  deriving DecidableEq

/-- `StateDependency` (phi/physics/physics.py): a logical parameter name, the
referenced tag or identity, and the `blocking` flag. -/
structure StateDependency : Type where
  parameter_name : String
  ref : DepRef
  blocking : Bool
  deriving DecidableEq

/-- The `dependent_states` dict passed to `Physics.step`: parameter name to
list of resolved states, with insertion-ordered dict update semantics. -/
abbrev DepMap := List (String × List SState)

/-- Dict lookup with the empty default used for missing keyword arguments
(e.g. `effects=()` in burgers.py). -/
def DepMap.getEntry (m : DepMap) (n : String) : List SState :=
  match m.find? (fun p => p.1 == n) with
  | some p => p.2
  | none => []

/-- Failures raised synchronously by the collective machinery. -/
inductive Err : Type where
  /-- `CollectiveState.__getitem__` with a trajectorykey asserts that exactly
      one member state matches; `found` is the actual match count. -/
  | cardinality (key : ℕ) (found : ℕ)
  /-- a physics step applied to a state lacking the fields it reads
      (Python `AttributeError`) -/
  | badPayload (key : ℕ)
  /-- `AttributeError` raised by invoking a method the receiver does not
      have: in this snapshot always the dict method `.items` called on the
      tuple (`Physics.dependencies`) or filter object
      (`Physics.blocking_dependencies`) of dependency records -/
  | attributeError (attr : String)
  /-- the cyclic blocking-dependency diagnostic of `CollectivePhysics.step`:
      the unresolved states, and for each of them its blocking dependencies as
      gathered from the pre-tick collective state -/
  | cyclic (unresolved : List SState) (details : List (SState × DepMap))
  deriving DecidableEq

/-- `Physics` (phi/physics/physics.py): declared dependencies plus the `step`
transition.  `step` takes the current state, `dt` and the resolved
`dependent_states` dict, and can fail. -/
structure Physics : Type where
  dependencies : List StateDependency
  step : SState → ℚ → DepMap → Except Err SState

/-- physics.py: `filter(lambda d: d.blocking, self.dependencies)`. -/
def Physics.blocking_dependencies (p : Physics) : List StateDependency :=
  p.dependencies.filter (fun d => d.blocking)

/-- `Static.step` (physics.py): `state.copied_with(age=state.age + dt)`.
`copied_with` (from the absent `phi.struct` package) is modelled from the
spec: it preserves the trajectorykey and every field not named, and sets the
named ones. -/
def staticStep (s : SState) (dt : ℚ) (_deps : DepMap) : Except Err SState :=
  .ok { s with age := s.age + dt }

/-- The module-level `STATIC = Static()` instance, the default physics of
every plain `State`. -/
def STATIC : Physics := ⟨[], staticStep⟩

/-- `BurgerPhysics.step` (phi/physics/burger.py):
`state.copied_with(velocity=advect(diffuse(state.velocity, state.viscosity, dt), dt))`.
Note: no `age` update.  (The Python signature is the old-era
`step(self, state, dependent_states, dt=1.0)`; the body only reads the
velocity and viscosity fields.)  Applied to a state without those fields it
raises an `AttributeError`. -/
def burgerStep (s : SState) (dt : ℚ) (_deps : DepMap) : Except Err SState :=
  match s.payload with
  | .burgerV v visc =>
      .ok { s with payload := .burgerV (.burgerAdvect (.burgerDiffuse v visc dt) dt) visc }
  | _ => .error (.badPayload s.trajectorykey)

/-- `BurgerPhysics` (burger.py): constructed with no dependencies. -/
def BurgerPhysics : Physics := ⟨[], burgerStep⟩

/-- `BurgersPhysics.step` (phi/physics/burgers.py): semi-Lagrangian
self-advection, diffusion by `dt * viscosity` with one substep, the effects
applied in order, then `copied_with(velocity=v, age=state.age + dt)`. -/
def burgersStep (s : SState) (dt : ℚ) (deps : DepMap) : Except Err SState :=
  match s.payload with
  | .burgersV v visc =>
      let v1 := VExpr.semiLagrangian v v dt
      let v2 := VExpr.diffuse v1 (dt * visc) 1
      let v3 := (deps.getEntry "effects").foldl
        (fun w e => VExpr.effectApplied e.trajectorykey w dt) v2
      .ok { s with payload := .burgersV v3 visc, age := s.age + dt }
  | _ => .error (.badPayload s.trajectorykey)

/-- `BurgersPhysics` (burgers.py): one blocking dependency
`StateDependency('effects', 'velocity_effect', blocking=True)`. -/
def BurgersPhysics : Physics :=
  ⟨[⟨"effects", .byTag "velocity_effect", true⟩], burgersStep⟩

/-- `State.default_physics` of the embedded leaf-state kinds: `Static` for
plain states (physics.py), `BurgerPhysics` for `Burger` (burger.py),
`BurgersPhysics` for `Burgers` (burgers.py). -/
def SState.default_physics (s : SState) : Physics :=
  match s.payload with
  | .plain => STATIC
  | .burgerV _ _ => BurgerPhysics
  | .burgersV _ _ => BurgersPhysics

/-! ## CollectiveState (phi/physics/collective.py)

`CollectiveState` is itself a `State` (it carries a trajectorykey and an age)
holding an ordered tuple of member states.  Constructing a fresh
`CollectiveState(...)` runs `State.__init__`, which (modelled from the spec,
the `phi.struct` package being absent from src/) allocates a fresh
process-unique trajectorykey: the embedding threads an explicit supply of
unused keys, and every construction site consumes the next supplied key.
`copied_with` preserves the existing key. -/

/-- `CollectiveState`: trajectorykey and age from `State`, plus the ordered
`states` tuple.  (The `tags`/`name` fields play no role in any verified
property of the collective and are omitted from this record.) -/
structure CollectiveState : Type where
  trajectorykey : ℕ
  age : ℚ
  states : List SState
  deriving DecidableEq

/-- `get_by_tag(tag)`: the member states carrying the tag, in order. -/
def CollectiveState.get_by_tag (c : CollectiveState) (tag : String) : List SState :=
  c.states.filter (fun s => s.tags.contains tag)

/-- `TrajectoryKey in collectivestate` (`__contains__`): some member state has
the key. -/
def CollectiveState.containsKey (c : CollectiveState) (k : ℕ) : Bool :=
  c.states.any (fun s => s.trajectorykey == k)

/-- `collectivestate[trajectorykey]` (`__getitem__`): filter by key and assert
exactly one match. -/
def CollectiveState.getByKey (c : CollectiveState) (k : ℕ) : Except Err SState :=
  match c.states.filter (fun s => s.trajectorykey == k) with
  | [s] => .ok s
  | l => .error (.cardinality k l.length)

/-- `collectivestate[state]` (`__getitem__` with a `State`): if the state is a
member return it, otherwise look it up by its trajectorykey. -/
def CollectiveState.getByState (c : CollectiveState) (s : SState) : Except Err SState :=
  if s ∈ c.states then .ok s else c.getByKey s.trajectorykey

/-- `CollectiveState.__add__` with a `State` (collective.py):
`CollectiveState(self.states + (other,))`.  No duplicate-trajectorykey check
is performed.  The constructor allocates a fresh trajectorykey (`freshkey`)
and, `age` not being passed, the new collective gets the default age `0.0`
(the `age` property default in physics.py). -/
def CollectiveState.addState (c : CollectiveState) (s : SState) (freshkey : ℕ) :
    CollectiveState :=
  ⟨freshkey, 0, c.states ++ [s]⟩

/-- `state_replaced(old_state, new_state)` (collective.py): map over the
states tuple replacing every member equal to `old_state`; `copied_with`
preserves the collective's trajectorykey and age. -/
def CollectiveState.state_replaced (c : CollectiveState) (old new : SState) :
    CollectiveState :=
  { c with states := c.states.map (fun s => if s = old then new else s) }

/-! ## CollectivePhysics: the dependency scheduler (phi/physics/collective.py)

collective.py's dependency machinery predates the `Physics` class shipped in
this snapshot of physics.py: `_gather_dependencies` iterates
`dependencies.items()`, the dict protocol, while `Physics.__init__` stores
`dependencies` as a tuple of `StateDependency` records and
`blocking_dependencies` is a `filter` object over that tuple.  Neither a
tuple nor a filter object has an `.items` method, so every call into
`_gather_dependencies` raises `AttributeError` before resolving anything.
The sweep loop, the substep path and the cyclic diagnostic are structurally
present (and embedded below as written) but unreachable for any non-empty
collective. -/

/-- A physics registry entry: trajectorykey to `Physics`. -/
structure CollectivePhysics : Type where
  physics : List (ℕ × Physics)

/-- `for_(state)`: the registered physics for the state's trajectorykey, else
the state's default physics. -/
def CollectivePhysics.for_ (cp : CollectivePhysics) (s : SState) : Physics :=
  match cp.physics.find? (fun p => p.1 == s.trajectorykey) with
  | some p => p.2
  | none => s.default_physics

/-- `CollectivePhysics.add(trajectorykey, physics)`: dict insertion
(overwrites an existing entry for the key). -/
def CollectivePhysics.addPhysics (cp : CollectivePhysics) (k : ℕ) (p : Physics) :
    CollectivePhysics :=
  if cp.physics.any (fun q => q.1 == k) then
    ⟨cp.physics.map (fun q => if q.1 == k then (k, p) else q)⟩
  else
    ⟨cp.physics ++ [(k, p)]⟩

/-- `_gather_dependencies(dependencies, collectivestate, result_dict)`
(collective.py): its first operation is `for name, deps in
dependencies.items()`.  Every caller passes either `physics.dependencies`
(a tuple of `StateDependency`, physics.py) or
`physics.blocking_dependencies` (a `filter` object, physics.py); neither
has an `.items` method, so the call raises `AttributeError` unconditionally,
whatever the dependency records contain.  (Python names the receiver type in
the message; the embedding records the missing attribute.) -/
def _gather_dependencies (_dependencies : List StateDependency)
    (_collectivestate : CollectiveState) (_result_dict : DepMap) :
    Except Err DepMap :=
  .error (.attributeError "items")

/-- `_all_dependencies_fulfilled(dependencies, all_states, computed_states)`:
gather the dependencies from the pre-tick collective and check that every
referenced state's trajectorykey is already present in the partial result.
Since the gather raises, this check raises `AttributeError` whenever it is
reached. -/
def _all_dependencies_fulfilled (deps : List StateDependency)
    (all_states computed : CollectiveState) : Except Err Bool :=
  match _gather_dependencies deps all_states [] with
  | .error e => .error e
  | .ok m => .ok (m.all (fun p => p.2.all (fun s => computed.containsKey s.trajectorykey)))

/-- `substep(state, collectivestate, dt, override_physics, partial_next_collectivestate)`:
gather all declared dependencies from the pre-tick collective, then (when a
partial next collective is given) re-gather the blocking ones from it
(overwriting those dict entries), and invoke the physics step.  The first
gather raises `AttributeError` for every `Physics` built through physics.py,
so no substep ever reaches its physics step. -/
def CollectivePhysics.substep (cp : CollectivePhysics) (s : SState)
    (c : CollectiveState) (dt : ℚ) (override_physics : Option Physics)
    (pnext : Option CollectiveState) : Except Err SState :=
  let physics := match override_physics with
    | some p => p
    | none => cp.for_ s
  match _gather_dependencies physics.dependencies c [] with
  | .error e => .error e
  | .ok deps0 =>
      match pnext with
      | none => physics.step s dt deps0
      | some p =>
          match _gather_dependencies physics.blocking_dependencies p deps0 with
          | .error e => .error e
          | .ok deps1 => physics.step s dt deps1

/-- One sweep of the scheduler loop: iterate over the snapshot of the
unresolved states taken at sweep start (`tuple(unhandled_states)`), stepping
each state whose blocking dependencies are fulfilled against the fixed
pre-sweep partial collective, appending results to `next` and removing the
state from the live unresolved list. -/
def sweepOnce (cp : CollectivePhysics) (c : CollectiveState) (dt : ℚ)
    (pnext : CollectiveState) :
    List SState → List SState → List SState → Except Err (List SState × List SState)
  | [], unhandled, next => .ok (unhandled, next)
  | s :: snap, unhandled, next =>
      match _all_dependencies_fulfilled (cp.for_ s).blocking_dependencies c pnext with
      | .error e => .error e
      | .ok false => sweepOnce cp c dt pnext snap unhandled next
      | .ok true =>
          match cp.substep s c dt none (some pnext) with
          | .error e => .error e
          | .ok ns => sweepOnce cp c dt pnext snap (unhandled.erase s) (next ++ [ns])

/-- The per-state part of the cyclic-dependency diagnostic: for each
unresolved state, its blocking dependencies gathered from the pre-tick
collective (`state_dict` in the error path of `CollectivePhysics.step`). -/
def cyclicDetails (cp : CollectivePhysics) (c : CollectiveState) :
    List SState → Except Err (List (SState × DepMap))
  | [] => .ok []
  | s :: rest =>
      match _gather_dependencies (cp.for_ s).blocking_dependencies c [] with
      | .error e => .error e
      | .ok m =>
          match cyclicDetails cp c rest with
          | .error e => .error e
          | .ok ds => .ok ((s, m) :: ds)

/-- `ordered_states = [partial_next_collectivestate[state] for state in collectivestate.states]`:
re-extract the stepped states in the input ordering. -/
def orderedStates (pnext : CollectiveState) : List SState → Except Err (List SState)
  | [] => .ok []
  | s :: rest =>
      match pnext.getByState s with
      | .error e => .error e
      | .ok t =>
          match orderedStates pnext rest with
          | .error e => .error e
          | .ok ts => .ok (t :: ts)

/-- The bounded sweep loop of `CollectivePhysics.step` (`for sweep in
range(len(collectivestate))`): run one sweep against the current partial
collective, rebuild the partial collective from the accumulated next states
(a fresh construction, consuming the next key from the supply), and on an
empty unresolved list return the partial collective `copied_with` the
input-ordered states; exhausting the sweeps raises the cyclic diagnostic. -/
def sweepLoop (cp : CollectivePhysics) (c : CollectiveState) (dt : ℚ) :
    ℕ → CollectiveState → List SState → List SState → ℕ → Except Err CollectiveState
  | 0, _pnext, unhandled, _next, _supply =>
      match cyclicDetails cp c unhandled with
      | .error e => .error e
      | .ok ds => .error (.cyclic unhandled ds)
  | fuel + 1, pnext, unhandled, next, supply =>
      match sweepOnce cp c dt pnext unhandled unhandled next with
      | .error e => .error e
      | .ok (u, n) =>
          if u = [] then
            match orderedStates ⟨supply, c.age + dt, n⟩ c.states with
            | .error e => .error e
            | .ok ordered => .ok ⟨supply, c.age + dt, ordered⟩
          else
            sweepLoop cp c dt fuel ⟨supply, c.age + dt, n⟩ u n (supply + 1)

/-- `CollectivePhysics.step(collectivestate, dt)` (collective.py): an empty
collective short-circuits to a freshly constructed empty collective with the
advanced age; otherwise run up to `len(states)` sweeps.  `supply` is the next
unused trajectorykey (spec model of the allocator): the pre-loop partial
collective construction consumes `supply`, each later construction the next
key.  With the shipped `Physics`, the first fulfillment check of the first
sweep raises `AttributeError`, so only the empty branch can return. -/
def CollectivePhysics.step (cp : CollectivePhysics) (c : CollectiveState)
    (dt : ℚ) (supply : ℕ) : Except Err CollectiveState :=
  if c.states.length = 0 then
    .ok ⟨supply, c.age + dt, []⟩
  else
    sweepLoop cp c dt c.states.length ⟨supply, c.age + dt, []⟩ c.states [] (supply + 1)

/-- `CollectiveState.default_physics()`: a `CollectivePhysics` with every
member state's default physics registered under its trajectorykey. -/
def CollectiveState.default_physics (c : CollectiveState) : CollectivePhysics :=
  ⟨c.states.map (fun s => (s.trajectorykey, s.default_physics))⟩

/-! ## World (phi/physics/world.py) -/

/-- `World.step(state, dt)` with a single entity (world.py): run
`physics.substep(state, self._state, dt)` (no partial next collective), then
replace the entity's entry via `state_replaced` and advance the collective
age by `dt` via `copied_with`.  Returns the new collective and the stepped
state. -/
def worldStepSingle (cp : CollectivePhysics) (c : CollectiveState) (e : SState)
    (dt : ℚ) : Except Err (CollectiveState × SState) :=
  match cp.substep e c dt none none with
  | .error er => .error er
  | .ok s => .ok ({ c.state_replaced e s with age := c.age + dt }, s)

/-- `World.add(state, physics)` (world.py): `self.state += state` (the
unchecked `CollectiveState.__add__`), then optionally register the physics
override.  `freshkey` is the trajectorykey allocated by the collective
construction inside `__add__`. -/
def worldAdd (cp : CollectivePhysics) (c : CollectiveState) (s : SState)
    (phys : Option Physics) (freshkey : ℕ) : CollectivePhysics × CollectiveState :=
  (match phys with
   | some p => cp.addPhysics s.trajectorykey p
   | none => cp,
   c.addState s freshkey)

/-! ## Geometry (phi/physics/geom.py) -/

/-- `Box(origin, size)`: axis-aligned box with per-axis origin and size;
`self.upper = self.origin + self.size` is computed in the constructor. -/
structure Box : Type where
  origin : List ℚ
  size : List ℚ
  deriving DecidableEq

/-- `Box.upper`: elementwise `origin + size`. -/
def Box.upper (b : Box) : List ℚ :=
  List.zipWith (fun a c => a + c) b.origin b.size

/-- `Box.value_at(global_position)`: elementwise
`(global_position >= self.origin) & (global_position <= self.upper)`, reduced
by `all` along the component axis, converted `to_float` (1 inside, 0
outside). -/
def Box.value_at (b : Box) (pos : List ℚ) : ℚ :=
  if (List.zipWith
      (fun p (ou : ℚ × ℚ) => decide (ou.1 ≤ p) && decide (p ≤ ou.2))
      pos (List.zip b.origin b.upper)).all id
  then 1 else 0

/-- One per-axis entry of the `box[...]` generator spec
(`BoxGenerator.__getitem__`): a slice `start:stop` (the source asserts the
step is `None` or 1), or a bare scalar coordinate. -/
inductive BoxSpecDim : Type where
  | interval (start stop : ℚ)
  | single (x : ℚ)
  deriving DecidableEq

/-- `BoxGenerator.__getitem__` (geom.py): a slice entry contributes origin
`start` and size `stop - start`; a scalar entry contributes origin at the
coordinate with size 1. -/
def boxGenerator (item : List BoxSpecDim) : Box :=
  { origin := item.map (fun d => match d with
      | .interval a _ => a
      | .single x => x),
    size := item.map (fun d => match d with
      | .interval a b => b - a
      | .single _ => 1) }

/-! ## Domain (phi/physics/domain.py) -/

/-- `Domain`: the resolution (ordered positive ints per axis).  The bounding
box and boundary materials play no part in the verified shape properties. -/
structure Domain : Type where
  resolution : List ℕ
  deriving DecidableEq

/-- `Domain.rank = len(resolution)`. -/
def Domain.rank (d : Domain) : ℕ := d.resolution.length

/-- `tensor_shape(batch_size, resolution, components)` (domain.py):
`[batch_size] + resolution + [components]`. -/
def tensor_shape (batch_size : ℕ) (resolution : List ℕ) (components : ℕ) :
    List ℕ :=
  [batch_size] ++ resolution ++ [components]

/-- `_extend1(shape, axis)` (domain.py): `shape[axis+1] += 1`. -/
def _extend1 (shape : List ℕ) (axis : ℕ) : List ℕ :=
  shape.set (axis + 1) (shape.getD (axis + 1) 0 + 1)

/-- The per-axis component data shapes built by `Domain.staggered_shape`
(domain.py): for each axis of the domain,
`_extend1(tensor_shape(batch_size, self.resolution, 1), axis)`. -/
def Domain.staggered_shape (d : Domain) (batch_size : ℕ) : List (List ℕ) :=
  (List.range d.rank).map (fun axis => _extend1 (tensor_shape batch_size d.resolution 1) axis)

/-- Modelled from the spec: `CenteredGrid.resolution` (the field package the
staggered components are built from is not under src/).  Per §3 "a
CenteredGrid's data shape is exactly `[batch, *resolution, components]`", so
the resolution is the data shape stripped of its batch and component axes. -/
def shapeResolution (shape : List ℕ) : List ℕ :=
  (shape.drop 1).dropLast

/-! ## Concrete example states used by witnesses and counterexamples -/

/-- A plain example state (key 0). -/
def exPlain : SState := ⟨0, ["examplestate"], 0, "p", .plain⟩

/-- A second plain state carrying key 0, distinguishable from `exPlain`. -/
def exPlainB : SState := ⟨0, ["examplestate"], 0, "q", .plain⟩

/-- An example `Burger` state (key 7), as built by `Burger.__init__`
(tags `('burger', 'velocityfield')`), with viscosity 1. -/
def exBurger : SState :=
  ⟨7, ["burger", "velocityfield"], 0, "burger_7", .burgerV (.value [1, 2]) 1⟩

/-- An example `Burgers` state (key 8, burgers.py tags), with viscosity 1. -/
def exBurgers : SState :=
  ⟨8, ["burgers", "velocityfield"], 0, "burgers_8", .burgersV (.value [3]) 1⟩

/-- An example collective holding just `exPlain`, under its own key 100. -/
def exC0 : CollectiveState := ⟨100, 0, [exPlain]⟩

/-! ## C3: stepping an empty collective -/

/-- C3: for every registry and every `dt`, `CollectivePhysics.step` on a
collective with no states short-circuits to a freshly constructed empty
collective whose age is the input age plus `dt`.  The result does not depend
on the registry `cp` (no per-state physics is consulted). -/
theorem empty_collective_step (cp : CollectivePhysics) (c : CollectiveState)
    (dt : ℚ) (supply : ℕ) (h : c.states = []) :
    cp.step c dt supply = .ok ⟨supply, c.age + dt, []⟩ := by
  simp [CollectivePhysics.step, h]

/-- C3 witness: the empty collective of age 0 stepped by `dt = 1` under the
empty registry. -/
theorem empty_collective_step_witness :
    CollectivePhysics.step ⟨[]⟩ ⟨5, 0, []⟩ 1 6 = .ok ⟨6, 0 + 1, []⟩ :=
  empty_collective_step ⟨[]⟩ ⟨5, 0, []⟩ 1 6 rfl

/-! ## C10: the Static physics is a pure age bump -/

/-- C10: for every state `s`, `dt` and dependency dict, `STATIC.step`
succeeds and returns a state that agrees with `s` on the trajectorykey, the
tags, the name and all kind-specific fields, with only the age set to
`s.age + dt`. -/
theorem static_step_frame (s : SState) (dt : ℚ) (deps : DepMap) :
    ∃ t, STATIC.step s dt deps = .ok t ∧
      t.trajectorykey = s.trajectorykey ∧ t.tags = s.tags ∧ t.name = s.name ∧
      t.payload = s.payload ∧ t.age = s.age + dt :=
  ⟨{ s with age := s.age + dt }, rfl, rfl, rfl, rfl, rfl, rfl⟩

/-! ## C5: which shipped physics advance the age

`Static.step` (physics.py) and `BurgersPhysics.step` (burgers.py) both set
`age = state.age + dt`; `BurgerPhysics.step` (burger.py) returns
`state.copied_with(velocity=...)` and leaves the age untouched, so the claim
as stated fails on it. -/

/-- C5 counterexample: `BurgerPhysics.step` on a concrete burger state with
`dt = 1` succeeds but returns the unchanged age 0 instead of `0 + 1`. -/
theorem burger_age_counterexample :
    ∃ t, BurgerPhysics.step exBurger 1 [] = .ok t ∧
      t.age = 0 ∧ exBurger.age + 1 = 1 ∧ t.age ≠ exBurger.age + 1 := by
  refine ⟨_, rfl, rfl, by norm_num [exBurger], by norm_num [exBurger, BurgerPhysics, burgerStep]⟩

/-- C5 amended: of the shipped physics in src/, `Static.step` and
`BurgersPhysics.step` return a state whose age is exactly `s.age + dt`,
while `BurgerPhysics.step` (burger.py) returns a state whose age equals the
input age. -/
theorem shipped_physics_age (s : SState) (dt : ℚ) (deps : DepMap) :
    (∀ t, STATIC.step s dt deps = .ok t → t.age = s.age + dt) ∧
    (∀ t, BurgersPhysics.step s dt deps = .ok t → t.age = s.age + dt) ∧
    (∀ t, BurgerPhysics.step s dt deps = .ok t → t.age = s.age) := by
  refine ⟨fun t ht => ?_, fun t ht => ?_, fun t ht => ?_⟩
  · cases ht; rfl
  · have h : burgersStep s dt deps = .ok t := ht
    unfold burgersStep at h
    split at h
    · cases h; rfl
    · cases h
  · have h : burgerStep s dt deps = .ok t := ht
    unfold burgerStep at h
    split at h
    · cases h; rfl
    · cases h

/-- C5 amended witness: the three physics evaluated at concrete states with
`dt = 1`. -/
theorem shipped_physics_age_witness :
    (∃ t, STATIC.step exPlain 1 [] = .ok t ∧ t.age = exPlain.age + 1) ∧
    (∃ t, BurgersPhysics.step exBurgers 1 [] = .ok t ∧ t.age = exBurgers.age + 1) ∧
    (∃ t, BurgerPhysics.step exBurger 1 [] = .ok t ∧ t.age = exBurger.age) :=
  ⟨⟨_, rfl, (shipped_physics_age exPlain 1 []).1 _ rfl⟩,
   ⟨_, rfl, (shipped_physics_age exBurgers 1 []).2.1 _ rfl⟩,
   ⟨_, rfl, (shipped_physics_age exBurger 1 []).2.2 _ rfl⟩⟩

/-! ## C6: adding a duplicate trajectorykey is not checked at add time -/

/-- C6 counterexample: adding a second state with trajectorykey 0 to a
collective already holding one succeeds (no exception is modelled because
`World.add`/`CollectiveState.__add__` perform no check) and yields a
collective containing two states with trajectorykey 0. -/
theorem world_add_duplicate_counterexample :
    (worldAdd ⟨[]⟩ exC0 exPlainB none 101).2.states = [exPlain, exPlainB] ∧
    ((worldAdd ⟨[]⟩ exC0 exPlainB none 101).2.states.countP
      (fun s => s.trajectorykey == 0)) = 2 := by
  exact ⟨rfl, rfl⟩

/-- C6 amended: `World.add` appends the state unconditionally — the new
collective's states are always the old ones followed by the added state,
with no duplicate-trajectorykey check — and when the added state's
trajectorykey is already present, the identity violation only surfaces at a
later identity lookup: `CollectiveState.__getitem__` by that key then raises
its exactly-one assertion (at least two states match). -/
theorem world_add_appends_unchecked (cp : CollectivePhysics)
    (c : CollectiveState) (s : SState) (phys : Option Physics) (k : ℕ) :
    ((worldAdd cp c s phys k).2.states = c.states ++ [s]) ∧
    (c.containsKey s.trajectorykey = true →
      ∃ n, ((worldAdd cp c s phys k).2.getByKey s.trajectorykey =
        .error (.cardinality s.trajectorykey n)) ∧ 2 ≤ n) := by
  constructor
  · cases phys <;> rfl
  · intro hmem
    have hstates : (worldAdd cp c s phys k).2.states = c.states ++ [s] := by
      cases phys <;> rfl
    have hfilter : (worldAdd cp c s phys k).2.states.filter
        (fun t => t.trajectorykey == s.trajectorykey) =
        c.states.filter (fun t => t.trajectorykey == s.trajectorykey) ++ [s] := by
      rw [hstates, List.filter_append]
      simp
    have hlen : 1 ≤ (c.states.filter (fun t => t.trajectorykey == s.trajectorykey)).length := by
      rcases List.any_eq_true.mp hmem with ⟨t, ht, hkey⟩
      have hmem2 : t ∈ c.states.filter (fun t => t.trajectorykey == s.trajectorykey) :=
        List.mem_filter.mpr ⟨ht, hkey⟩
      exact List.length_pos.mpr (List.ne_nil_of_mem hmem2)
    refine ⟨(c.states.filter (fun t => t.trajectorykey == s.trajectorykey) ++ [s]).length, ?_, ?_⟩
    · unfold CollectiveState.getByKey
      rw [hfilter]
      have h2 : 2 ≤ (c.states.filter (fun t => t.trajectorykey == s.trajectorykey) ++ [s]).length := by
        rw [List.length_append]
        simpa using hlen
      match hval : c.states.filter (fun t => t.trajectorykey == s.trajectorykey) ++ [s], h2 with
      | a :: b :: rest, _ => rfl
    · rw [List.length_append]
      simpa using hlen

/-- C6 amended witness: the concrete duplicate add from the counterexample,
with the later lookup raising the cardinality assertion for two matches. -/
theorem world_add_appends_unchecked_witness :
    ((worldAdd ⟨[]⟩ exC0 exPlainB none 101).2.states = exC0.states ++ [exPlainB]) ∧
    ∃ n, ((worldAdd ⟨[]⟩ exC0 exPlainB none 101).2.getByKey exPlainB.trajectorykey =
      .error (.cardinality exPlainB.trajectorykey n)) ∧ 2 ≤ n :=
  ⟨(world_add_appends_unchecked ⟨[]⟩ exC0 exPlainB none 101).1,
   (world_add_appends_unchecked ⟨[]⟩ exC0 exPlainB none 101).2 rfl⟩

/-! ## C7: Box membership and the box generator -/

/-- The componentwise inside-test underlying `Box.value_at` succeeds exactly
when every axis passes the closed-interval test. -/
theorem box_all_inside (pos origin size : List ℚ)
    (hp : pos.length = origin.length) (hs : size.length = origin.length) :
    ((List.zipWith (fun p (ou : ℚ × ℚ) => decide (ou.1 ≤ p) && decide (p ≤ ou.2))
        pos (List.zip origin (Box.upper ⟨origin, size⟩))).all id = true ↔
      ∀ i, i < pos.length →
        origin.getD i 0 ≤ pos.getD i 0 ∧
        pos.getD i 0 ≤ origin.getD i 0 + size.getD i 0) := by
  induction pos generalizing origin size with
  | nil => simp
  | cons p ps ih =>
      cases origin with
      | nil => exact absurd hp (by simp)
      | cons o os =>
          cases size with
          | nil => exact absurd hs (by simp)
          | cons z zs =>
              have hp' : ps.length = os.length := by simpa using hp
              have hs' : zs.length = os.length := by simpa using hs
              have core := ih os zs hp' hs'
              simp only [Box.upper, List.zipWith_cons_cons, List.zip_cons_cons,
                List.all_cons, Bool.and_eq_true, decide_eq_true_eq, id] at core ⊢
              constructor
              · rintro ⟨⟨h1, h2⟩, hrest⟩ i hi
                cases i with
                | zero => simpa using And.intro h1 h2
                | succ j =>
                    have hj : j < ps.length := by simpa using hi
                    simpa using core.mp hrest j hj
              · intro hall
                refine ⟨?_, core.mpr fun j hj => ?_⟩
                · simpa using hall 0 (by simp only [List.length_cons]; omega)
                · simpa using hall (j + 1) (by simp only [List.length_cons]; omega)

/-- `Box.value_at` returns 1 exactly when the per-axis interval test holds on
every axis (and 0 otherwise, `to_float` of the reduced boolean). -/
theorem box_value_at_iff (b : Box) (pos : List ℚ)
    (hp : pos.length = b.origin.length) (hs : b.size.length = b.origin.length) :
    (b.value_at pos = 1 ↔ ∀ i, i < pos.length →
      b.origin.getD i 0 ≤ pos.getD i 0 ∧
      pos.getD i 0 ≤ b.origin.getD i 0 + b.size.getD i 0) := by
  obtain ⟨origin, size⟩ := b
  have core := box_all_inside pos origin size hp hs
  unfold Box.value_at
  split
  · next hall => exact ⟨fun _ => core.mp hall, fun _ => rfl⟩
  · next hall =>
      refine ⟨fun h01 => absurd h01 (by norm_num), fun hr => absurd (core.mpr ?_) hall⟩
      exact hr

/-- C7: the `box[0:2, 6:10]` generator spec yields a box whose `value_at` is
1 at (1,7) and 0 at (5,5); in general `Box.value_at` is 1 exactly when
`origin ≤ pos ≤ origin + size` holds on every axis, and a slice entry
`start:stop` of the generator contributes origin `start` and size
`stop - start` while a bare scalar entry contributes a unit-size axis at that
coordinate. -/
theorem box_generator_membership :
    ((boxGenerator [.interval 0 2, .interval 6 10]).value_at [1, 7] = 1 ∧
     (boxGenerator [.interval 0 2, .interval 6 10]).value_at [5, 5] = 0) ∧
    (∀ (b : Box) (pos : List ℚ), pos.length = b.origin.length →
      b.size.length = b.origin.length →
      (b.value_at pos = 1 ↔ ∀ i, i < pos.length →
        b.origin.getD i 0 ≤ pos.getD i 0 ∧
        pos.getD i 0 ≤ b.origin.getD i 0 + b.size.getD i 0)) ∧
    (∀ (dims : List BoxSpecDim) (i : ℕ) (a c : ℚ),
      (dims.getD i (.single 0) = .interval a c → i < dims.length →
        (boxGenerator dims).origin.getD i 0 = a ∧
        (boxGenerator dims).size.getD i 0 = c - a) ∧
      (dims.getD i (.single 0) = .single a → i < dims.length →
        (boxGenerator dims).origin.getD i 0 = a ∧
        (boxGenerator dims).size.getD i 0 = 1)) := by
  refine ⟨⟨by norm_num [boxGenerator, Box.value_at, Box.upper],
    by norm_num [boxGenerator, Box.value_at, Box.upper]⟩, box_value_at_iff, ?_⟩
  intro dims i a c
  constructor
  · intro hdim hi
    have h1 : dims.getD i (.single 0) = dims[i] := List.getD_eq_getElem _ _ hi
    rw [h1] at hdim
    unfold boxGenerator
    refine ⟨?_, ?_⟩
    · rw [List.getD_eq_getElem _ _ (by simpa using hi), List.getElem_map, hdim]
    · rw [List.getD_eq_getElem _ _ (by simpa using hi), List.getElem_map, hdim]
  · intro hdim hi
    have h1 : dims.getD i (.single 0) = dims[i] := List.getD_eq_getElem _ _ hi
    rw [h1] at hdim
    unfold boxGenerator
    refine ⟨?_, ?_⟩
    · rw [List.getD_eq_getElem _ _ (by simpa using hi), List.getElem_map, hdim]
    · rw [List.getD_eq_getElem _ _ (by simpa using hi), List.getElem_map, hdim]

/-- C7 witness: the general membership characterization applied to the
generated box `box[0:2, 6:10]` at the concrete point (1,7). -/
theorem box_generator_membership_witness :
    (boxGenerator [.interval 0 2, .interval 6 10]).value_at [1, 7] = 1 ↔
      ∀ i, i < ([1, 7] : List ℚ).length →
        (boxGenerator [.interval 0 2, .interval 6 10]).origin.getD i 0 ≤
          ([1, 7] : List ℚ).getD i 0 ∧
        ([1, 7] : List ℚ).getD i 0 ≤
          (boxGenerator [.interval 0 2, .interval 6 10]).origin.getD i 0 +
          (boxGenerator [.interval 0 2, .interval 6 10]).size.getD i 0 :=
  box_generator_membership.2.1 (boxGenerator [.interval 0 2, .interval 6 10])
    [1, 7] rfl rfl

/-! ## C8: staggered component resolutions -/

/-- C8 general part: for every domain and axis below the rank, the axis
component of the staggered shape has resolution equal to the domain
resolution incremented by one at exactly that axis. -/
theorem staggered_component_resolution (d : Domain) (batch axis : ℕ)
    (h : axis < d.rank) :
    shapeResolution ((d.staggered_shape batch).getD axis []) =
      (List.range d.rank).map
        (fun j => d.resolution.getD j 0 + if j = axis then 1 else 0) := by
  obtain ⟨res⟩ := d
  have hlen : Domain.rank ⟨res⟩ = res.length := rfl
  rw [hlen] at h ⊢
  have hget : (Domain.staggered_shape ⟨res⟩ batch).getD axis [] =
      _extend1 (tensor_shape batch res 1) axis := by
    unfold Domain.staggered_shape
    rw [hlen, List.getD_eq_getElem?_getD, List.getElem?_map, List.getElem?_range h]
    rfl
  rw [hget]
  have hshape : tensor_shape batch res 1 = batch :: (res ++ [1]) := rfl
  have hgetD : (tensor_shape batch res 1).getD (axis + 1) 0 = res.getD axis 0 := by
    rw [hshape, List.getD_cons_succ, List.getD_append _ _ _ _ h]
  have hset : _extend1 (tensor_shape batch res 1) axis =
      batch :: (res.set axis (res.getD axis 0 + 1) ++ [1]) := by
    unfold _extend1
    rw [hgetD, hshape, List.set_cons_succ, List.set_append_left _ _ h]
  rw [hset]
  have hdrop : shapeResolution (batch :: (res.set axis (res.getD axis 0 + 1) ++ [1])) =
      res.set axis (res.getD axis 0 + 1) := by
    unfold shapeResolution
    rw [List.drop_one, List.tail_cons, List.dropLast_concat]
  rw [hdrop]
  have hres : (Domain.mk res).resolution = res := rfl
  simp only [hres]
  refine List.ext_getElem (by simp) fun i h1 h2 => ?_
  rw [List.getElem_set]
  rw [List.getElem_map, List.getElem_range]
  have hi : i < res.length := by simpa using h1
  rw [List.getD_eq_getElem _ _ hi]
  by_cases hax : axis = i
  · subst hax
    rw [if_pos rfl, if_pos rfl, List.getD_eq_getElem _ _ hi]
  · rw [if_neg hax, if_neg fun hh => hax hh.symm]
    omega

/-- C8: a Domain of resolution [4,4] yields staggered component resolutions
[5,4] and [4,5]; in general the axis-`i` component resolution equals the
domain resolution plus one in axis `i` only. -/
theorem staggered_shape_resolutions :
    ((Domain.mk [4, 4]).staggered_shape 1).map shapeResolution = [[5, 4], [4, 5]] ∧
    (∀ (d : Domain) (batch axis : ℕ), axis < d.rank →
      shapeResolution ((d.staggered_shape batch).getD axis []) =
        (List.range d.rank).map
          (fun j => d.resolution.getD j 0 + if j = axis then 1 else 0)) :=
  ⟨by decide, staggered_component_resolution⟩

/-- C8 witness: the general component-resolution law applied to the [4,4]
domain at axis 1. -/
theorem staggered_shape_resolutions_witness :
    shapeResolution (((Domain.mk [4, 4]).staggered_shape 1).getD 1 []) =
      (List.range (Domain.mk [4, 4]).rank).map
        (fun j => (Domain.mk [4, 4]).resolution.getD j 0 + if j = 1 then 1 else 0) :=
  staggered_shape_resolutions.2 (Domain.mk [4, 4]) 1 1 (by decide)

/-! ## C4: default physics and trajectorykey preservation

For the leaf states (plain/Burger/Burgers) the default physics preserves the
trajectorykey whenever it succeeds.  `CollectiveState` is itself a `State`,
and its default physics is `CollectivePhysics`, whose `step` returns a
freshly *constructed* `CollectiveState` — construction allocates a fresh
trajectorykey (spec model of the allocator), so the claim fails there. -/

/-- C4 counterexample: stepping an (empty) `CollectiveState` through its own
default physics returns a collective under a freshly allocated trajectorykey
(here the next unused key 1), not the input's trajectorykey 0. -/
theorem collective_default_physics_key_counterexample :
    ∃ out, CollectivePhysics.step (CollectiveState.default_physics ⟨0, 0, []⟩)
        ⟨0, 0, []⟩ 1 1 = .ok out ∧
      out.trajectorykey = 1 ∧ (⟨0, 0, []⟩ : CollectiveState).trajectorykey = 0 ∧
      out.trajectorykey ≠ (⟨0, 0, []⟩ : CollectiveState).trajectorykey :=
  ⟨_, rfl, rfl, rfl, by decide⟩

/-- C4 amended: for every leaf state (plain, Burger, Burgers), whenever the
state's default physics' step succeeds it returns a state with the same
trajectorykey. -/
theorem default_physics_preserves_key (s : SState) (dt : ℚ) (deps : DepMap)
    (t : SState) (h : s.default_physics.step s dt deps = .ok t) :
    t.trajectorykey = s.trajectorykey := by
  cases hp : s.payload with
  | plain =>
      have h2 : staticStep s dt deps = .ok t := by
        unfold SState.default_physics at h
        rw [hp] at h
        exact h
      cases h2; rfl
  | burgerV v visc =>
      have h2 : burgerStep s dt deps = .ok t := by
        unfold SState.default_physics at h
        rw [hp] at h
        exact h
      unfold burgerStep at h2
      split at h2
      · cases h2; rfl
      · cases h2
  | burgersV v visc =>
      have h2 : burgersStep s dt deps = .ok t := by
        unfold SState.default_physics at h
        rw [hp] at h
        exact h
      unfold burgersStep at h2
      split at h2
      · cases h2; rfl
      · cases h2

/-- C4 amended witness: the three leaf kinds at concrete states, `dt = 1`. -/
theorem default_physics_preserves_key_witness :
    (∃ t, exPlain.default_physics.step exPlain 1 [] = .ok t ∧
      t.trajectorykey = exPlain.trajectorykey) ∧
    (∃ t, exBurger.default_physics.step exBurger 1 [] = .ok t ∧
      t.trajectorykey = exBurger.trajectorykey) ∧
    (∃ t, exBurgers.default_physics.step exBurgers 1 [] = .ok t ∧
      t.trajectorykey = exBurgers.trajectorykey) :=
  ⟨⟨_, rfl, default_physics_preserves_key exPlain 1 [] _ rfl⟩,
   ⟨_, rfl, default_physics_preserves_key exBurger 1 [] _ rfl⟩,
   ⟨_, rfl, default_physics_preserves_key exBurgers 1 [] _ rfl⟩⟩

/-- Cycle-witness states: two plain states under keys 1 and 2. -/
def csA : SState := ⟨1, [], 0, "a", .plain⟩

/-- See `csA`. -/
def csB : SState := ⟨2, [], 0, "b", .plain⟩

/-- A static-stepping physics whose single dependency blocks on key 2. -/
def physA : Physics := ⟨[⟨"other", .byKey 2, true⟩], staticStep⟩

/-- A static-stepping physics whose single dependency blocks on key 1. -/
def physB : Physics := ⟨[⟨"other", .byKey 1, true⟩], staticStep⟩

/-- The registry binding `csA`/`csB` to the mutually blocking physics. -/
def regAB : CollectivePhysics := ⟨[(1, physA), (2, physB)]⟩

/-- The two-state collective for the cycle witness. -/
def cAB : CollectiveState := ⟨90, 0, [csA, csB]⟩

/-! ## C1, C2, C9: what the dependency machinery of this snapshot does

Every scheduler and substep path goes through `_gather_dependencies`, which
raises `AttributeError` on the tuple/filter dependency collections built by
physics.py's `Physics`.  The theorems below establish the resulting
behaviour: every non-empty collective step and every single-entity world
step fail with that error, so neither the cyclic diagnostic nor a
successful non-empty step nor a single-entity replacement is reachable. -/

/-- Stepping any non-empty collective raises the `.items` `AttributeError`
at the first fulfillment check of the first sweep. -/
theorem collective_step_nonempty_attribute_error (cp : CollectivePhysics)
    (c : CollectiveState) (dt : ℚ) (supply : ℕ) (h : c.states ≠ []) :
    cp.step c dt supply = .error (.attributeError "items") := by
  obtain ⟨s, rest, hc⟩ := List.exists_cons_of_ne_nil h
  unfold CollectivePhysics.step
  rw [hc]
  rw [if_neg (by simp)]
  rfl

/-- C1 witness helper and C1 (code bug): in the claim's mutual-blocking
scenario the scheduler does not raise the cyclic blocking-dependency
diagnostic: it raises the `.items` `AttributeError` at the very first
fulfillment check (collective.py line 100 reaching `dependencies.items()`),
and the cyclic error value with its unresolved-state diagnostic is never
produced. -/
theorem cyclic_blocking_attribute_error (cp : CollectivePhysics)
    (c : CollectiveState) (dt : ℚ) (supply : ℕ) (s1 s2 : SState) (p1 p2 : String)
    (hs1 : s1 ∈ c.states) (_hs2 : s2 ∈ c.states)
    (_hd1 : (⟨p1, .byKey s2.trajectorykey, true⟩ : StateDependency) ∈
      (cp.for_ s1).dependencies)
    (_hd2 : (⟨p2, .byKey s1.trajectorykey, true⟩ : StateDependency) ∈
      (cp.for_ s2).dependencies) :
    cp.step c dt supply = .error (.attributeError "items") ∧
    ∀ unres details, cp.step c dt supply ≠ .error (.cyclic unres details) := by
  have herr := collective_step_nonempty_attribute_error cp c dt supply
    (List.ne_nil_of_mem hs1)
  refine ⟨herr, fun unres details hcyc => ?_⟩
  rw [herr] at hcyc
  simp at hcyc

/-- C1 witness: the concrete two-state mutual-blocking collective of the
claim ends with the `AttributeError`, not the cyclic diagnostic. -/
theorem cyclic_blocking_attribute_error_witness :
    regAB.step cAB 1 100 = .error (.attributeError "items") ∧
    ∀ unres details, regAB.step cAB 1 100 ≠ .error (.cyclic unres details) :=
  cyclic_blocking_attribute_error regAB cAB 1 100 csA csB "other" "other"
    (by decide) (by decide) (by decide) (by decide)

/-- C2 (code bug): the only collective steps that succeed in this snapshot
are steps of an empty collective — any non-empty step raises the `.items`
`AttributeError` before resolving its first state.  On the successful
(empty) runs the claim's per-index trajectorykey property holds trivially;
the intended non-empty success path of the sweep loop is unreachable. -/
theorem collective_step_ok_only_empty (cp : CollectivePhysics)
    (c : CollectiveState) (dt : ℚ) (supply : ℕ) (out : CollectiveState)
    (h : cp.step c dt supply = .ok out) :
    c.states = [] ∧ out.states = [] ∧
    ∀ i (h1 : i < out.states.length) (h2 : i < c.states.length),
      (out.states.get ⟨i, h1⟩).trajectorykey =
        (c.states.get ⟨i, h2⟩).trajectorykey := by
  by_cases hne : c.states = []
  · unfold CollectivePhysics.step at h
    rw [if_pos (by rw [hne]; rfl)] at h
    cases h
    exact ⟨hne, rfl, fun i h1 h2 => absurd h1 (by simp)⟩
  · rw [collective_step_nonempty_attribute_error cp c dt supply hne] at h
    cases h

/-- C2 witness: the empty collective steps successfully and satisfies the
conclusion. -/
theorem collective_step_ok_only_empty_witness :
    ∃ out, CollectivePhysics.step ⟨[]⟩ ⟨7, 0, []⟩ 1 8 = .ok out ∧
      out.states = [] :=
  ⟨_, rfl, (collective_step_ok_only_empty ⟨[]⟩ ⟨7, 0, []⟩ 1 8 _ rfl).2.1⟩

/-- C9 (code bug): stepping a single entity through the World never reaches
the replace-one-entry-and-advance-age path: `substep` first gathers
`physics.dependencies` — a tuple, whose missing `.items` method raises
`AttributeError` for every physics built through physics.py, `Static`
included — so the call fails for every world, entity and `dt`. -/
theorem world_step_single_attribute_error (cp : CollectivePhysics)
    (c : CollectiveState) (e : SState) (dt : ℚ) :
    worldStepSingle cp c e dt = .error (.attributeError "items") := rfl

end PhiFlow
